import Mathlib

/-!
Verification of the order-assistant workflow orchestration core.

The development shallowly embeds the Python sources of the repository:

* `agent/constants.py` — field names, status values, agent names;
* `agent/order_flow_agent.py` — the routing function `get_next_agent`;
* `agent/custom_workflow_agent.py` — the workflow engine loop
  `CustomWorkflowAgent._run_async_impl`;
* `agent/menu_agent/menu_agent.py` — the order ledger
  `AfterModelCallback.update_order` and the menu price map;
* the status-mutating model callbacks of the preorder, menu, confirmation
  and user-info agents, used for the temporal state-machine claims.

The Python session state is a string-keyed dict; the five fields used by the
core are modeled as `Option`-typed record fields, `none` meaning the key is
absent.  Python `Decimal` arithmetic is modeled by `Rat` (exact decimal
arithmetic embeds exactly in the rationals; see the comment on
`update_order` for the `float` store/reload round-trip).
-/

namespace OrderAssistant

/-! ## Constants (`agent/constants.py`) -/

def CONFIRMED : String := "confirmed"

def FINISHED : String := "finished"

def IN_PROGRESS : String := "in_progress"

def GETTING_USER_INFO : String := "getting_user_info"

def PREORDER_AGENT : String := "preorder_agent"

def MENU_AGENT : String := "menu_agent"

def CONFIRMATION_AGENT : String := "confirmation_agent"

def USER_INFO_AGENT : String := "user_info_agent"

def DONE : String := "done"

/-! ## Session state

`ctx.session.state` is a dict; the orchestration core touches exactly the
five keys below.  `none` models an absent key.  `order_total` is stored in
Python as a float but all arithmetic on it goes through `Decimal`; it is
modeled as an exact rational (see `update_order`). -/

structure SessionState where
  order_type : Option String
  order_status : Option String
  current_order : Option (List String)
  order_total : Option Rat
  name_for_order : Option String
deriving DecidableEq, Repr

/-- The state at conversation start: an empty dict, every key absent. -/
def initState : SessionState :=
  { order_type := none
    order_status := none
    current_order := none
    order_total := none
    name_for_order := none }

/-! ## Routing function (`order_flow_agent.get_next_agent`) -/

/-- `get_next_agent` from `agent/order_flow_agent.py`.

Python reads `session_state.get(key, default)`, modeled with `Option.getD`;
the truthiness test `not session_state.get(NAME_FOR_ORDER, None)` holds for
a missing key, `None`, and the empty string, captured by
`s.name_for_order.getD "" = ""`. -/
def get_next_agent (s : SessionState) : String :=
  if s.order_type.getD "UNKNOWN" = "UNKNOWN" then
    PREORDER_AGENT
  else
    let order_status := s.order_status.getD "UNKNOWN"
    if order_status = "UNKNOWN" ∨ order_status = IN_PROGRESS then
      MENU_AGENT
    else if order_status = FINISHED then
      CONFIRMATION_AGENT
    else if order_status = CONFIRMED ∧ s.name_for_order.getD "" = "" then
      USER_INFO_AGENT
    else if order_status = GETTING_USER_INFO then
      USER_INFO_AGENT
    else
      DONE

/-- Modelled from the spec, section 4.1: the six routing rules in their
stated order (first matching rule wins).  Written from the spec's words, to
be compared with `get_next_agent`, which is written from the source. -/
def routeSpec (s : SessionState) : String :=
  if s.order_type.getD "UNKNOWN" = "UNKNOWN" then
    PREORDER_AGENT
  else if s.order_status.getD "UNKNOWN" = "UNKNOWN" ∨
      s.order_status.getD "UNKNOWN" = IN_PROGRESS then
    MENU_AGENT
  else if s.order_status.getD "UNKNOWN" = FINISHED then
    CONFIRMATION_AGENT
  else if s.order_status.getD "UNKNOWN" = CONFIRMED ∧
      s.name_for_order.getD "" = "" then
    USER_INFO_AGENT
  else if s.order_status.getD "UNKNOWN" = GETTING_USER_INFO then
    USER_INFO_AGENT
  else
    DONE

/-! ## Workflow engine (`custom_workflow_agent.py`)

`CustomWorkflowAgent._run_async_impl` runs a `while self.step < 30` loop.
Each iteration increments the persistent instance counter `self.step`,
looks the routed name up in `agent_map`, runs the selected sub-agent
(yielding its events), re-routes, and either suspends (same agent routed
again) or hands off to the newly routed agent. -/

def MAX_ITERATIONS : Nat := 30

def DONE_AGENT : String := "done"

/-- A sub-agent invocation: consumes the session state, returns the mutated
state and the events it yielded. -/
def Handler : Type := SessionState → SessionState × List String

/-- The two constructor arguments of `CustomWorkflowAgent`: the name-keyed
registry of sub-agents and the routing function. -/
structure EngineConfig where
  agent_map : String → Option Handler
  get_next_agent : SessionState → String

/-- How one external invocation of `_run_async_impl` ended. -/
inductive RunOutcome where
  /-- The branch `if selected_agent == _DONE_AGENT` was taken. -/
  | doneAgentMatch : RunOutcome
  /-- The branch `if not selected_agent` was taken: the routed name is
  absent from `agent_map`; an error is logged and the generator returns. -/
  | unknownAgent (name : String) : RunOutcome
  /-- Re-routing named the agent that just ran: the generator returns to
  await the next user input. -/
  | suspend : RunOutcome
  /-- The `while self.step < _MAX_ITERATIONS` condition failed: the
  generator returns with no further action. -/
  | capExhausted : RunOutcome
deriving DecidableEq, Repr

/-- Result of one external invocation: final session state, the events
yielded, how the loop ended, and the final value of the persistent
`self.step` counter. -/
structure RunResult where
  state : SessionState
  outputs : List String
  outcome : RunOutcome
  step : Nat
deriving DecidableEq, Repr

/-- `self.agent_map.get(selected_agent_name, None)` yields an agent object
or `None`, and `_DONE_AGENT` is the string `"done"`.  In Python,
`None == "done"` is `False` and an agent object never compares equal to a
string, so the test `selected_agent == _DONE_AGENT` never succeeds, for any
lookup result. -/
def selectedAgentEqDoneAgent : Option Handler → Bool := fun _ =>
  false

/-- The body of the `while self.step < _MAX_ITERATIONS` loop, with the
remaining iteration budget made explicit: a `while` loop whose condition is
`step < MAX_ITERATIONS` and whose body increments `step` executes exactly
`MAX_ITERATIONS - step` more iterations, so `fuel` is kept equal to
`MAX_ITERATIONS - step` (see `runLoop`).  `fuel = 0` is the
condition-failed exit. -/
def runLoopAux (cfg : EngineConfig) :
    Nat → Nat → String → SessionState → List String → RunResult
  | 0, step, _, s, outputs => ⟨s, outputs, .capExhausted, step⟩
  | fuel + 1, step, selected_agent_name, s, outputs =>
    let step := step + 1
    let selected_agent := cfg.agent_map selected_agent_name
    if selectedAgentEqDoneAgent selected_agent then
      ⟨s, outputs, .doneAgentMatch, step⟩
    else
      match selected_agent with
      | none => ⟨s, outputs, .unknownAgent selected_agent_name, step⟩
      | some handler =>
        let s' := (handler s).1
        let events := (handler s).2
        let next_agent := cfg.get_next_agent s'
        if next_agent = selected_agent_name then
          ⟨s', outputs ++ events, .suspend, step⟩
        else
          runLoopAux cfg fuel step next_agent s' (outputs ++ events)

/-- The `while` loop of `_run_async_impl`, entered with the persistent
counter at `step` and `selected_agent_name` already routed. -/
def runLoop (cfg : EngineConfig) (step : Nat) (selected_agent_name : String)
    (s : SessionState) (outputs : List String) : RunResult :=
  runLoopAux cfg (MAX_ITERATIONS - step) step selected_agent_name s outputs

/-- `CustomWorkflowAgent._run_async_impl`: routes once from the current
session state, then enters the loop.  `step` is the current value of the
persistent instance field `self.step` (`0` at construction, carried over
from the previous invocation afterwards — the source never resets it). -/
def run_async_impl (cfg : EngineConfig) (step : Nat) (s : SessionState) :
    RunResult :=
  runLoop cfg step (cfg.get_next_agent s) s []

/-! ## Concrete engine configurations used as test inputs -/

/-- A crafted configuration whose routing function always returns a name
different from the one that just ran (the routed name records how many
items the previous handlers appended), and whose registry resolves every
name.  This is the spec's "routing function that always returns a different
handler". -/
def loopCfg : EngineConfig where
  agent_map _ :=
    some fun s =>
      ({ s with current_order := some ((s.current_order.getD []) ++ ["x"]) },
        ["event"])
  get_next_agent s :=
    String.mk (List.replicate (s.current_order.getD []).length 'a')

/-- The production registry of `order_flow_agent.create_agent`: exactly the
four sub-agent names are mapped, together with the production routing
function.  The sub-agents' own behaviour is model-driven and irrelevant to
the engine-path claims, so they are modeled as handlers that leave the
state unchanged and yield nothing. -/
def fourAgentCfg : EngineConfig where
  agent_map name :=
    if name = PREORDER_AGENT ∨ name = MENU_AGENT ∨
        name = CONFIRMATION_AGENT ∨ name = USER_INFO_AGENT then
      some fun s => (s, [])
    else
      none
  get_next_agent := get_next_agent

/-- A completed order: type chosen, status confirmed, customer name set.
`get_next_agent` maps it to the terminal sentinel `done`. -/
def doneState : SessionState :=
  { order_type := some "TO_GO"
    order_status := some CONFIRMED
    current_order := some []
    order_total := some 0
    name_for_order := some "John" }

/-- A state in the middle of item selection; `get_next_agent` maps it to
`menu_agent`. -/
def menuState : SessionState :=
  { order_type := some "TO_GO"
    order_status := some IN_PROGRESS
    current_order := some []
    order_total := some 0
    name_for_order := none }

/-! ## Order ledger (`menu_agent/menu_agent.py`)

`AfterModelCallback.update_order` parses the model's `order_update` string
with `re.findall(r'(\w+)\s+\[([^\]]*)\]', order_update)` and applies the
add/remove blocks to `current_order` and `order_total`. -/

/-- A character matched by the regex class `\w` (the command strings are
ASCII, where `\w` is a letter, a digit or an underscore). -/
def isWordChar (c : Char) : Bool :=
  c.isAlphanum || c = '_'

/-- A character matched by the regex class `\s` (for the ASCII characters
appearing here: space, tab, carriage return, line feed). -/
def isSpaceChar (c : Char) : Bool :=
  c.isWhitespace

/-- Progress of the left-to-right scan for the next occurrence of
`(\w+)\s+\[([^\]]*)\]`. -/
inductive ScanState where
  /-- Not inside a candidate match. -/
  | outside : ScanState
  /-- Reading the `\w+` run `w`. -/
  | inWord (w : List Char) : ScanState
  /-- After word `w`, reading the `\s+` run. -/
  | inWs (w : List Char) : ScanState
  /-- After `w`, whitespace and `[`, accumulating the `[^\]]*` content. -/
  | inBracket (w : List Char) (acc : List Char) : ScanState

/-- One-pass scanner equivalent to `re.findall` for the pattern
`(\w+)\s+\[([^\]]*)\]`: `findall` tries the pattern at each position from
left to right and continues after each match.  Because the pattern's three
runs are separated by distinct character classes, no failed attempt can
overlap a later successful one except by starting a fresh `\w+` run, which
is exactly what the transitions below do. -/
def scanAux : ScanState → List Char → List (String × String)
  | _, [] => []
  | .outside, c :: cs =>
    if isWordChar c then scanAux (.inWord [c]) cs else scanAux .outside cs
  | .inWord w, c :: cs =>
    if isWordChar c then scanAux (.inWord (w ++ [c])) cs
    else if isSpaceChar c then scanAux (.inWs w) cs
    else scanAux .outside cs
  | .inWs w, c :: cs =>
    if c = '[' then scanAux (.inBracket w []) cs
    else if isSpaceChar c then scanAux (.inWs w) cs
    else if isWordChar c then scanAux (.inWord [c]) cs
    else scanAux .outside cs
  | .inBracket w acc, c :: cs =>
    if c = ']' then (String.mk w, String.mk acc) :: scanAux .outside cs
    else scanAux (.inBracket w (acc ++ [c])) cs

/-- `re.findall(r'(\w+)\s+\[([^\]]*)\]', order_update)`: the list of
`(command, items_str)` blocks. -/
def command_blocks (order_update : String) : List (String × String) :=
  scanAux .outside order_update.toList

/-- Python `items_str.split(',')`: cut at every comma, keeping empty
pieces (`''.split(',')` is `['']`). -/
def splitOnComma : List Char → List (List Char)
  | [] => [[]]
  | c :: cs =>
    if c = ',' then
      [] :: splitOnComma cs
    else
      match splitOnComma cs with
      | [] => [[c]]
      | piece :: rest => (c :: piece) :: rest

/-- Python `item.strip()`: drop leading and trailing whitespace. -/
def stripChars (cs : List Char) : List Char :=
  ((cs.dropWhile isSpaceChar).reverse.dropWhile isSpaceChar).reverse

/-- `[item.strip() for item in items_str.split(',') if item.strip()]`. -/
def parseItems (items_str : String) : List String :=
  ((splitOnComma items_str.toList).map
      (fun cs => String.mk (stripChars cs))).filter (fun i => i ≠ "")

/-- The price of one item: `self.price_map.get(item, Decimal(0))`. -/
def itemPrice (price_map : String → Option Rat) (item : String) : Rat :=
  (price_map item).getD 0

/-- One item of a `remove` block applied to the running
`(current_order, order_total)` pair: `current_order.remove(item_to_remove)`
deletes the first occurrence and the price is subtracted; for an absent
item Python's `list.remove` raises `ValueError`, which is caught and only
logged — no mutation for that item. -/
def removeItem (price_map : String → Option Rat)
    (acc : List String × Rat) (item_to_remove : String) :
    List String × Rat :=
  if acc.1.contains item_to_remove then
    (acc.1.erase item_to_remove, acc.2 - itemPrice price_map item_to_remove)
  else
    acc

/-- One `(command, items_str)` block applied to the running
`(current_order, order_total)` pair, exactly as the body of the
`for command, items_str in command_blocks` loop: `add` extends the list
and adds each item's price (a price-map miss adds 0); `remove` applies
`removeItem` to each item in turn.  Any other verb does nothing. -/
def applyBlock (price_map : String → Option Rat)
    (acc : List String × Rat) (block : String × String) :
    List String × Rat :=
  let items := parseItems block.2
  if block.1 = "add" then
    (acc.1 ++ items, acc.2 + (items.map (itemPrice price_map)).sum)
  else if block.1 = "remove" then
    items.foldl (removeItem price_map) acc
  else
    acc

/-- `AfterModelCallback.update_order(order_update, state)`.

An empty `order_update` returns immediately (`if not order_update`).
Otherwise the source first inserts `current_order = []` and
`order_total = 0.0` for absent keys, reads both, applies the parsed blocks,
and stores both keys back; since the final store always writes both keys,
reading the defaulted values directly (`Option.getD`) yields the same final
state.

`order_total` is stored in Python as a float and reloaded with
`Decimal(str(...))`; every total reachable here is a non-negative multiple
of one cent far below 2^45 cents, for which `float` followed by `str`
round-trips to the exact decimal, so the store/reload is modeled as the
identity on the exact rational value and all arithmetic is the exact
`Decimal` arithmetic, modeled in `Rat`. -/
def update_order (price_map : String → Option Rat) (order_update : String)
    (state : SessionState) : SessionState :=
  if order_update = "" then
    state
  else
    let current_order := state.current_order.getD []
    let order_total := state.order_total.getD 0
    let res := (command_blocks order_update).foldl (applyBlock price_map)
      (current_order, order_total)
    { state with current_order := some res.1, order_total := some res.2 }

/-- The price map built by `MenuAgent.__init__` from the `_MENU` yaml:
each item's `Decimal` price in dollars. -/
def menuPriceMap : String → Option Rat := fun name =>
  if name = "King Burger" then some (999 / 100)
  else if name = "Mini Burger" then some (799 / 100)
  else if name = "French Fries" then some (299 / 100)
  else if name = "Onion Rings" then some (399 / 100)
  else if name = "Large Fountain Drink" then some (399 / 100)
  else if name = "Medium Fountain Drink" then some (299 / 100)
  else none

/-- The item names of the `_MENU` catalog. -/
def menuItemNames : List String :=
  ["King Burger", "Mini Burger", "French Fries", "Onion Rings",
    "Large Fountain Drink", "Medium Fountain Drink"]

/-- The ledger invariant of the spec: the (defaulted) stored total equals
the sum of catalog prices over the (defaulted) stored order. -/
def ledgerInv (price_map : String → Option Rat) (s : SessionState) : Prop :=
  s.order_total.getD 0 =
    ((s.current_order.getD []).map (itemPrice price_map)).sum

/-- A state whose cart already holds a King Burger (first) and a Mini
Burger, with the matching total. -/
def twoItemState : SessionState :=
  { order_type := some "TO_GO"
    order_status := some IN_PROGRESS
    current_order := some ["King Burger", "Mini Burger"]
    order_total := some (999 / 100 + 799 / 100)
    name_for_order := none }

/-! ## Status-mutating handler callbacks

The four sub-agents mutate `order_status`, `order_type`, `name_for_order`
and the cart through their model callbacks; the model's structured output
is a free parameter of each transition. -/

/-- The `OrderType` enum of `preorder_agent.py`. -/
inductive OrderTypeOut where
  | TO_GO : OrderTypeOut
  | FOR_HERE : OrderTypeOut
  | UNKNOWN : OrderTypeOut
deriving DecidableEq, Repr

/-- `output.order_type.name`: the Python enum member's name. -/
def OrderTypeOut.name : OrderTypeOut → String
  | .TO_GO => "TO_GO"
  | .FOR_HERE => "FOR_HERE"
  | .UNKNOWN => "UNKNOWN"

/-- `preorder_agent.AfterModelCallback.__call__`: stores the enum member
name when the model reported a non-UNKNOWN order type. -/
def preorder_after_model (order_type : OrderTypeOut) (s : SessionState) :
    SessionState :=
  if order_type ≠ OrderTypeOut.UNKNOWN then
    { s with order_type := some order_type.name }
  else
    s

/-- `menu_agent.AfterModelCallback.__call__`: sets `order_status` to
`finished` or `in_progress` from `output.order_finished`, then applies
`update_order` to `output.order_update` against the menu price map. -/
def menu_after_model (order_finished : Bool) (order_update : String)
    (s : SessionState) : SessionState :=
  let s1 :=
    if order_finished then { s with order_status := some FINISHED }
    else { s with order_status := some IN_PROGRESS }
  update_order menuPriceMap order_update s1

/-- `confirmation_agent.AfterModelCallback.__call__`: on a non-"unknown"
answer, sets `order_status` to `confirmed` for `"true"` and to
`in_progress` otherwise. -/
def confirmation_after_model (order_confirmed : String) (s : SessionState) :
    SessionState :=
  if order_confirmed ≠ "unknown" then
    if order_confirmed = "true" then { s with order_status := some CONFIRMED }
    else { s with order_status := some IN_PROGRESS }
  else
    s

/-- The model output schema of `user_info_agent.py`. -/
structure UserInfoOutput where
  name_for_order : String
  requires_order_update : Bool

/-- One invocation of the user-info agent.

`BeforeModelCallback.__call__` reads `state[ORDER_STATUS]` (the router only
sends states whose status key is present here): when the status is
`confirmed` it answers directly — keeping the state unchanged when a name
is already set (Python truthiness of `state.get(NAME_FOR_ORDER, None)`),
and otherwise moving the status to `getting_user_info` — and the model is
not called.  When the status is not `confirmed` the model runs and
`AfterModelCallback.__call__` either moves the status to `in_progress`
(`requires_order_update`) or stores the reported name. -/
def user_info_invoke (output : UserInfoOutput) (s : SessionState) :
    SessionState :=
  if s.order_status = some CONFIRMED then
    if s.name_for_order.getD "" ≠ "" then s
    else { s with order_status := some GETTING_USER_INFO }
  else if output.requires_order_update then
    { s with order_status := some IN_PROGRESS }
  else
    { s with name_for_order := some output.name_for_order }

/-- One step of the routed workflow: the handler selected by
`get_next_agent` runs with an arbitrary model output. -/
inductive WStep : SessionState → SessionState → Prop where
  | preorder (s : SessionState) (t : OrderTypeOut)
      (hroute : get_next_agent s = PREORDER_AGENT) :
      WStep s (preorder_after_model t s)
  | menu (s : SessionState) (order_finished : Bool) (order_update : String)
      (hroute : get_next_agent s = MENU_AGENT) :
      WStep s (menu_after_model order_finished order_update s)
  | confirmation (s : SessionState) (order_confirmed : String)
      (hroute : get_next_agent s = CONFIRMATION_AGENT) :
      WStep s (confirmation_after_model order_confirmed s)
  | user_info (s : SessionState) (output : UserInfoOutput)
      (hroute : get_next_agent s = USER_INFO_AGENT) :
      WStep s (user_info_invoke output s)

/-! ## A concrete execution used as a test input -/

/-- Step 1 of the sample run: the user chose a to-go order. -/
def sample1 : SessionState :=
  preorder_after_model OrderTypeOut.TO_GO initState

/-- Step 2: the user added a King Burger. -/
def sample2 : SessionState :=
  menu_after_model false "add [King Burger]" sample1

/-- Step 3: the user finished ordering. -/
def sample3 : SessionState :=
  menu_after_model true "" sample2

/-- Step 4: the user confirmed the order. -/
def sample4 : SessionState :=
  confirmation_after_model "true" sample3

/-- Step 5: the user-info agent asks for a name. -/
def sample5 : SessionState :=
  user_info_invoke ⟨"", false⟩ sample4

/-- The sample run as a trace function. -/
def sampleTrace : Nat → SessionState := fun i =>
  [initState, sample1, sample2, sample3, sample4].getD i sample5

end OrderAssistant

namespace OrderAssistant

/-! # Theorems -/

/-! ## Routing (claim C1) -/

/-- Claim C1: for every session state, `get_next_agent` is total, follows
the six routing rules of the spec in order, and returns exactly one of the
four handler names or the terminal sentinel `done`. -/
theorem routing_follows_spec_rules (s : SessionState) :
    get_next_agent s = routeSpec s ∧
    (get_next_agent s = PREORDER_AGENT ∨ get_next_agent s = MENU_AGENT ∨
      get_next_agent s = CONFIRMATION_AGENT ∨
      get_next_agent s = USER_INFO_AGENT ∨ get_next_agent s = DONE) := by
  constructor
  · simp only [get_next_agent, routeSpec]
  · simp only [get_next_agent]
    split_ifs <;> simp [PREORDER_AGENT, MENU_AGENT, CONFIRMATION_AGENT,
      USER_INFO_AGENT, DONE]

/-! ## Workflow engine: iteration cap (claim C2) -/

/-- Bounds on the persistent step counter through one run of the loop:
it never decreases, it grows by at most `fuel`, and it grows by exactly
`fuel` precisely when the run ends by exhausting the cap. -/
theorem runLoopAux_step_bounds (cfg : EngineConfig) (fuel : Nat) :
    ∀ (step : Nat) (sel : String) (s : SessionState) (outs : List String),
      step ≤ (runLoopAux cfg fuel step sel s outs).step ∧
      (runLoopAux cfg fuel step sel s outs).step ≤ step + fuel ∧
      ((runLoopAux cfg fuel step sel s outs).outcome = .capExhausted →
        (runLoopAux cfg fuel step sel s outs).step = step + fuel) := by
  induction fuel with
  | zero =>
    intro step sel s outs
    simp [runLoopAux]
  | succ f ih =>
    intro step sel s outs
    simp only [runLoopAux, selectedAgentEqDoneAgent, Bool.false_eq_true,
      if_false]
    cases h : cfg.agent_map sel with
    | none => simp
    | some handler =>
      simp only
      split_ifs with hnext
      · simp
      · obtain ⟨h1, h2, h3⟩ := ih (step + 1) (cfg.get_next_agent (handler s).1)
          (handler s).1 (outs ++ (handler s).2)
        refine ⟨by omega, by omega, fun hc => ?_⟩
        have := h3 hc
        omega

/-- Claim C2 (amended): one external invocation advances the persistent
step counter to at most `max step 30`, so it executes at most 30 handler
iterations — but the counter is carried over from the previous invocation
rather than starting fresh, and a run that exhausts the cap simply returns
with the counter at `max step 30` (no fatal-abort path exists in the
loop). -/
theorem iteration_cap_bounds_each_invocation (cfg : EngineConfig)
    (step : Nat) (s : SessionState) :
    step ≤ (run_async_impl cfg step s).step ∧
    (run_async_impl cfg step s).step ≤ max step MAX_ITERATIONS ∧
    ((run_async_impl cfg step s).outcome = .capExhausted →
      (run_async_impl cfg step s).step = max step MAX_ITERATIONS) := by
  obtain ⟨h1, h2, h3⟩ := runLoopAux_step_bounds cfg (MAX_ITERATIONS - step)
    step (cfg.get_next_agent s) s []
  unfold run_async_impl runLoop
  refine ⟨h1, by omega, fun hc => ?_⟩
  have := h3 hc
  omega

/-- Witness for `iteration_cap_bounds_each_invocation`: with the crafted
always-hand-off configuration and a fresh counter, the run exhausts the cap
and leaves the persistent counter at exactly 30. -/
theorem iteration_cap_bounds_each_invocation_witness :
    (run_async_impl loopCfg 0 initState).step = max 0 MAX_ITERATIONS :=
  (iteration_cap_bounds_each_invocation loopCfg 0 initState).2.2 (by decide)

/-- Counterexample to claim C2 as stated: with the crafted routing function
that always returns a different handler, the first external invocation
stops after 30 iterations by plain loop exit (`capExhausted`), returning
the 30 events already produced with no fatal-abort signal; and because the
persistent counter `self.step` is never reset, a second external invocation
of the same engine instance executes zero handler iterations and yields no
output at all — the counter does not start fresh each call. -/
theorem iteration_counter_not_fresh_counterexample :
    (run_async_impl loopCfg 0 initState).outcome = RunOutcome.capExhausted ∧
    (run_async_impl loopCfg 0 initState).step = 30 ∧
    (run_async_impl loopCfg 0 initState).outputs.length = 30 ∧
    (run_async_impl loopCfg 30 initState).outcome = RunOutcome.capExhausted ∧
    (run_async_impl loopCfg 30 initState).outputs = [] := by
  decide

/-! ## Workflow engine: terminal sentinel vs unknown handler (claim C3) -/

/-- Claim C3 is a code bug: on the completed-order state the router returns
the terminal sentinel `done`, and the engine takes the unknown-agent error
branch for it (the source compares the *looked-up agent object* with the
string `"done"`, which never succeeds, so the intended normal-stop branch
is unreachable for every configuration, fuel, counter, name and state). -/
theorem done_sentinel_takes_unknown_agent_path :
    (get_next_agent doneState = DONE ∧
      (run_async_impl fourAgentCfg 0 doneState).outcome =
        RunOutcome.unknownAgent "done") ∧
    ∀ (cfg : EngineConfig) (fuel step : Nat) (sel : String)
      (s : SessionState) (outs : List String),
      (runLoopAux cfg fuel step sel s outs).outcome ≠
        RunOutcome.doneAgentMatch := by
  constructor
  · exact ⟨by decide, by decide⟩
  · intro cfg fuel
    induction fuel with
    | zero => intro step sel s outs; simp [runLoopAux]
    | succ f ih =>
      intro step sel s outs
      simp only [runLoopAux, selectedAgentEqDoneAgent, Bool.false_eq_true,
        if_false]
      cases h : cfg.agent_map sel with
      | none => simp
      | some handler =>
        simp only
        split_ifs with hnext
        · simp
        · exact ih (step + 1) (cfg.get_next_agent (handler s).1)
            (handler s).1 (outs ++ (handler s).2)

/-! ## Workflow engine: hand-off versus suspend (claim C4) -/

/-- Claim C4: in an iteration below the cap that runs handler `handler`,
the engine re-routes on the updated state; if the routed name equals the
handler that just ran the loop returns (suspend, turn boundary), and if it
names a different handler the loop continues with that handler and no new
user input (the recursive loop entry). -/
theorem engine_handoff_or_suspend (cfg : EngineConfig) (step : Nat)
    (sel : String) (s : SessionState) (outs : List String)
    (handler : Handler) (hstep : step < MAX_ITERATIONS)
    (hsel : cfg.agent_map sel = some handler) :
    (cfg.get_next_agent (handler s).1 = sel →
      runLoop cfg step sel s outs =
        ⟨(handler s).1, outs ++ (handler s).2, .suspend, step + 1⟩) ∧
    (cfg.get_next_agent (handler s).1 ≠ sel →
      runLoop cfg step sel s outs =
        runLoop cfg (step + 1) (cfg.get_next_agent (handler s).1)
          (handler s).1 (outs ++ (handler s).2)) := by
  have hfuel : MAX_ITERATIONS - step = (MAX_ITERATIONS - (step + 1)) + 1 := by
    unfold MAX_ITERATIONS at *
    omega
  unfold runLoop
  rw [hfuel]
  simp only [runLoopAux, selectedAgentEqDoneAgent, Bool.false_eq_true,
    if_false, hsel]
  constructor
  · intro hsame
    simp [hsame]
  · intro hdiff
    simp [hdiff]

/-- Witness for `engine_handoff_or_suspend`: with the production registry,
a mid-ordering state routed to `menu_agent` whose handler leaves routing
unchanged makes the engine suspend after one iteration. -/
theorem engine_handoff_or_suspend_witness :
    runLoop fourAgentCfg 0 MENU_AGENT menuState [] =
      ⟨menuState, [], RunOutcome.suspend, 1⟩ :=
  (engine_handoff_or_suspend fourAgentCfg 0 MENU_AGENT menuState []
    (fun s => (s, [])) (by decide) rfl).1 rfl

/-! ## Order ledger: the running-total invariant (claim C5) -/

/-- Erasing the first occurrence of a present element removes exactly its
`f`-value from the mapped sum. -/
theorem sum_map_erase (f : String → Rat) (l : List String) (a : String)
    (h : a ∈ l) :
    ((l.erase a).map f).sum = (l.map f).sum - f a := by
  induction l with
  | nil => cases h
  | cons b t ih =>
    by_cases hba : b = a
    · subst hba
      rw [List.erase_cons_head]
      simp
    · rw [List.erase_cons_tail (by simpa using hba)]
      have hat : a ∈ t := by
        rcases List.mem_cons.mp h with h' | h'
        · exact absurd h'.symm hba
        · exact h'
      simp only [List.map_cons, List.sum_cons, ih hat]
      ring

/-- `removeItem` preserves the sum relation between the pair's total and
its item list. -/
theorem removeItem_preserves (pm : String → Option Rat)
    (acc : List String × Rat) (item : String)
    (h : acc.2 = (acc.1.map (itemPrice pm)).sum) :
    (removeItem pm acc item).2 =
      ((removeItem pm acc item).1.map (itemPrice pm)).sum := by
  unfold removeItem
  split_ifs with hc
  · have hm : item ∈ acc.1 := by simpa using hc
    simp only [sum_map_erase (itemPrice pm) acc.1 item hm, h]
  · exact h

/-- `applyBlock` preserves the sum relation. -/
theorem applyBlock_preserves (pm : String → Option Rat)
    (acc : List String × Rat) (block : String × String)
    (h : acc.2 = (acc.1.map (itemPrice pm)).sum) :
    (applyBlock pm acc block).2 =
      ((applyBlock pm acc block).1.map (itemPrice pm)).sum := by
  unfold applyBlock
  split_ifs with hadd hrem
  · simp [List.map_append, List.sum_append, h]
  · generalize parseItems block.2 = items
    induction items generalizing acc with
    | nil => simpa using h
    | cons i t ih =>
      simp only [List.foldl_cons]
      exact ih (removeItem pm acc i) (removeItem_preserves pm acc i h)
  · exact h

/-- A whole `update_order` call preserves the ledger invariant. -/
theorem update_order_preserves_inv (pm : String → Option Rat)
    (order_update : String) (s : SessionState) (h : ledgerInv pm s) :
    ledgerInv pm (update_order pm order_update s) := by
  unfold update_order
  split_ifs with he
  · exact h
  · unfold ledgerInv at h ⊢
    simp only [Option.getD_some]
    generalize command_blocks order_update = blocks
    generalize hacc : (s.current_order.getD [], s.order_total.getD 0) = acc
    have hinv : acc.2 = (acc.1.map (itemPrice pm)).sum := by
      rw [← hacc]
      exact h
    clear hacc h
    induction blocks generalizing acc with
    | nil => simpa using hinv
    | cons b t ih =>
      simp only [List.foldl_cons]
      exact ih (applyBlock pm acc b) (applyBlock_preserves pm acc b hinv)

/-- Claim C5: starting from any state satisfying the ledger invariant,
every sequence of `update_order` applications keeps `order_total` exactly
equal to the sum of catalog prices over `current_order`; the arithmetic is
the exact `Decimal` arithmetic of the source, modeled in `Rat`, so no
binary rounding error accumulates across any sequence of add/remove
commands. -/
theorem order_total_invariant_preserved (pm : String → Option Rat)
    (updates : List String) (s : SessionState) (h : ledgerInv pm s) :
    ledgerInv pm
      (updates.foldl (fun st u => update_order pm u st) s) := by
  induction updates generalizing s with
  | nil => simpa using h
  | cons u t ih =>
    simp only [List.foldl_cons]
    exact ih (update_order pm u s) (update_order_preserves_inv pm u s h)

/-- Witness for `order_total_invariant_preserved`: two concrete updates
applied to the empty initial state keep the invariant. -/
theorem order_total_invariant_preserved_witness :
    ledgerInv menuPriceMap
      ((["add [King Burger, French Fries]", "remove [King Burger]"]).foldl
        (fun st u => update_order menuPriceMap u st) initState) :=
  order_total_invariant_preserved menuPriceMap
    ["add [King Burger, French Fries]", "remove [King Burger]"] initState rfl

/-! ## Order ledger: add/remove round trip (claim C6) -/

/-- Round trip for any item name whose `add`/`remove` command strings
parse back to that single item: the total is restored exactly, the cart is
restored up to permutation, and the cart is restored as the same sequence
precisely when the item was not already present (since `add` appends at the
end while `remove` deletes the first occurrence). -/
theorem add_remove_round_trip_general (pm : String → Option Rat)
    (x : String) (s : SessionState)
    (hadd : command_blocks ("add [" ++ x ++ "]") = [("add", x)])
    (hrem : command_blocks ("remove [" ++ x ++ "]") = [("remove", x)])
    (hitems : parseItems x = [x]) :
    (update_order pm ("remove [" ++ x ++ "]")
        (update_order pm ("add [" ++ x ++ "]") s)).order_total =
      some (s.order_total.getD 0) ∧
    ((update_order pm ("remove [" ++ x ++ "]")
        (update_order pm ("add [" ++ x ++ "]") s)).current_order.getD
      []).Perm (s.current_order.getD []) ∧
    (x ∉ s.current_order.getD [] →
      (update_order pm ("remove [" ++ x ++ "]")
          (update_order pm ("add [" ++ x ++ "]") s)).current_order =
        some (s.current_order.getD [])) := by
  have hne1 : ("add [" ++ x ++ "]") ≠ "" := by
    intro h
    rw [h] at hadd
    exact absurd hadd (by simp [command_blocks, scanAux])
  have hne2 : ("remove [" ++ x ++ "]") ≠ "" := by
    intro h
    rw [h] at hrem
    exact absurd hrem (by simp [command_blocks, scanAux])
  have e1 : update_order pm ("add [" ++ x ++ "]") s =
      { s with
        current_order := some (s.current_order.getD [] ++ [x]),
        order_total := some (s.order_total.getD 0 + itemPrice pm x) } := by
    unfold update_order
    rw [if_neg hne1, hadd]
    simp [applyBlock, hitems]
  have hcontains : (s.current_order.getD [] ++ [x]).contains x = true := by
    simp
  have e2 : update_order pm ("remove [" ++ x ++ "]")
      (update_order pm ("add [" ++ x ++ "]") s) =
      { s with
        current_order := some ((s.current_order.getD [] ++ [x]).erase x),
        order_total := some (s.order_total.getD 0) } := by
    rw [e1]
    unfold update_order
    rw [if_neg hne2, hrem]
    simp only [List.foldl_cons, List.foldl_nil]
    unfold applyBlock
    have hr1 : ¬(("remove", x) : String × String).1 = "add" := by simp
    have hr2 : (("remove", x) : String × String).1 = "remove" := rfl
    rw [if_neg hr1, if_pos hr2, hitems]
    simp only [List.foldl_cons, List.foldl_nil]
    unfold removeItem
    simp only [Option.getD_some, hcontains, if_pos]
    have : s.order_total.getD 0 + itemPrice pm x - itemPrice pm x =
        s.order_total.getD 0 := by ring
    rw [this]
  refine ⟨by rw [e2], ?_, ?_⟩
  · rw [e2]
    simp only [Option.getD_some]
    by_cases hx : x ∈ s.current_order.getD []
    · rw [List.erase_append_left _ hx]
      exact (List.perm_append_singleton x _).trans
        (List.perm_cons_erase hx).symm
    · rw [List.erase_append_right _ hx]
      simp
  · intro hx
    rw [e2]
    rw [List.erase_append_right _ hx]
    simp

/-- Counterexample to claim C6 as stated: starting with a King Burger at
the head of the cart, `add [King Burger]` then `remove [King Burger]`
moves the original King Burger to the end — the cart is not restored as
the same ordered sequence. -/
theorem add_remove_reorders_counterexample :
    (update_order menuPriceMap "remove [King Burger]"
        (update_order menuPriceMap "add [King Burger]" twoItemState)
      ).current_order ≠ twoItemState.current_order ∧
    (update_order menuPriceMap "remove [King Burger]"
        (update_order menuPriceMap "add [King Burger]" twoItemState)
      ).current_order = some ["Mini Burger", "King Burger"] ∧
    twoItemState.current_order = some ["King Burger", "Mini Burger"] := by
  decide

/-- Claim C6 (amended): for every catalog item X and every starting state,
`add [X]` then `remove [X]` restores `order_total` to its pre-mutation
(default-0) value and `current_order` to a permutation of its pre-mutation
(default-empty) contents; the ordered sequence itself is restored whenever
X did not already occur in `current_order`. -/
theorem add_remove_round_trip_amended (x : String) (s : SessionState)
    (hx : x ∈ menuItemNames) :
    (update_order menuPriceMap ("remove [" ++ x ++ "]")
        (update_order menuPriceMap ("add [" ++ x ++ "]") s)).order_total =
      some (s.order_total.getD 0) ∧
    ((update_order menuPriceMap ("remove [" ++ x ++ "]")
        (update_order menuPriceMap ("add [" ++ x ++ "]") s)).current_order.getD
      []).Perm (s.current_order.getD []) ∧
    (x ∉ s.current_order.getD [] →
      (update_order menuPriceMap ("remove [" ++ x ++ "]")
          (update_order menuPriceMap ("add [" ++ x ++ "]") s)).current_order =
        some (s.current_order.getD [])) := by
  simp only [menuItemNames, List.mem_cons, List.not_mem_nil, or_false] at hx
  rcases hx with rfl | rfl | rfl | rfl | rfl | rfl <;>
    exact add_remove_round_trip_general menuPriceMap _ s (by decide)
      (by decide) (by decide)

/-- Witness for `add_remove_round_trip_amended`: a King Burger added then
removed on the already-stocked two-item cart restores the total and a
permutation of the cart. -/
theorem add_remove_round_trip_amended_witness :
    (update_order menuPriceMap ("remove [" ++ "King Burger" ++ "]")
        (update_order menuPriceMap ("add [" ++ "King Burger" ++ "]")
          twoItemState)).order_total =
      some (twoItemState.order_total.getD 0) ∧
    ((update_order menuPriceMap ("remove [" ++ "King Burger" ++ "]")
        (update_order menuPriceMap ("add [" ++ "King Burger" ++ "]")
          twoItemState)).current_order.getD []).Perm
      (twoItemState.current_order.getD []) :=
  ⟨(add_remove_round_trip_amended "King Burger" twoItemState (by decide)).1,
    (add_remove_round_trip_amended "King Burger" twoItemState (by decide)).2.1⟩

/-! ## Order ledger: removing an absent item (claim C7) -/

/-- Claim C7: a `remove` command for an item name not present in
`current_order` leaves the stored order and total values unchanged (and
the whole state unchanged when both ledger keys are present); the miss is
only logged, never an error, and `order_total` is not decremented. -/
theorem remove_absent_item_noop (pm : String → Option Rat) (x : String)
    (s : SessionState)
    (hrem : command_blocks ("remove [" ++ x ++ "]") = [("remove", x)])
    (hitems : parseItems x = [x])
    (habs : x ∉ s.current_order.getD []) :
    (update_order pm ("remove [" ++ x ++ "]") s).current_order =
      some (s.current_order.getD []) ∧
    (update_order pm ("remove [" ++ x ++ "]") s).order_total =
      some (s.order_total.getD 0) ∧
    (∀ co t, s.current_order = some co → s.order_total = some t →
      update_order pm ("remove [" ++ x ++ "]") s = s) := by
  have hne : ("remove [" ++ x ++ "]") ≠ "" := by
    intro h
    rw [h] at hrem
    exact absurd hrem (by simp [command_blocks, scanAux])
  have e : update_order pm ("remove [" ++ x ++ "]") s =
      { s with
        current_order := some (s.current_order.getD []),
        order_total := some (s.order_total.getD 0) } := by
    unfold update_order
    rw [if_neg hne, hrem]
    simp only [List.foldl_cons, List.foldl_nil]
    unfold applyBlock
    have hr1 : ¬(("remove", x) : String × String).1 = "add" := by simp
    have hr2 : (("remove", x) : String × String).1 = "remove" := rfl
    rw [if_neg hr1, if_pos hr2, hitems]
    simp only [List.foldl_cons, List.foldl_nil]
    unfold removeItem
    simp [habs]
  refine ⟨by rw [e], by rw [e], fun co t hco ht => ?_⟩
  rw [e, hco, ht]
  simp only [Option.getD_some]
  rw [← hco, ← ht]

/-- Witness for `remove_absent_item_noop`: removing Onion Rings from the
two-burger cart changes neither the cart nor the total, and leaves the
state identical. -/
theorem remove_absent_item_noop_witness :
    update_order menuPriceMap ("remove [" ++ "Onion Rings" ++ "]")
      twoItemState = twoItemState :=
  (remove_absent_item_noop menuPriceMap "Onion Rings" twoItemState
    (by decide) (by decide) (by decide)).2.2
    ["King Burger", "Mini Burger"] (999 / 100 + 799 / 100) rfl rfl

/-! ## Order ledger: adding an unknown catalog item (claim C8) -/

/-- Claim C8: an `add` command for an item name absent from the price map
appends the item to `current_order` and adds price 0 to `order_total` —
the unknown item is zero-priced, never an error. -/
theorem add_unknown_item_zero_priced (pm : String → Option Rat)
    (x : String) (s : SessionState)
    (hadd : command_blocks ("add [" ++ x ++ "]") = [("add", x)])
    (hitems : parseItems x = [x])
    (hmiss : pm x = none) :
    (update_order pm ("add [" ++ x ++ "]") s).current_order =
      some (s.current_order.getD [] ++ [x]) ∧
    (update_order pm ("add [" ++ x ++ "]") s).order_total =
      some (s.order_total.getD 0) := by
  have hne : ("add [" ++ x ++ "]") ≠ "" := by
    intro h
    rw [h] at hadd
    exact absurd hadd (by simp [command_blocks, scanAux])
  have e : update_order pm ("add [" ++ x ++ "]") s =
      { s with
        current_order := some (s.current_order.getD [] ++ [x]),
        order_total := some (s.order_total.getD 0 + itemPrice pm x) } := by
    unfold update_order
    rw [if_neg hne, hadd]
    simp [applyBlock, hitems]
  rw [e]
  have : itemPrice pm x = 0 := by simp [itemPrice, hmiss]
  simp [this]

/-- Witness for `add_unknown_item_zero_priced`: `Pizza` is not on the
menu; adding it appends it to the cart and leaves the total unchanged. -/
theorem add_unknown_item_zero_priced_witness :
    (update_order menuPriceMap ("add [" ++ "Pizza" ++ "]")
      menuState).current_order = some ["Pizza"] ∧
    (update_order menuPriceMap ("add [" ++ "Pizza" ++ "]")
      menuState).order_total = some 0 :=
  add_unknown_item_zero_priced menuPriceMap "Pizza" menuState
    (by decide) (by decide) (by decide)

/-! ## Order ledger: empty versus unparseable updates (claim C10) -/

/-- Blocks whose verb is neither `add` nor `remove` leave the running pair
untouched. -/
theorem foldl_applyBlock_unknown_verbs (pm : String → Option Rat)
    (blocks : List (String × String))
    (hb : ∀ b ∈ blocks, b.1 ≠ "add" ∧ b.1 ≠ "remove") :
    ∀ acc : List String × Rat, blocks.foldl (applyBlock pm) acc = acc := by
  induction blocks with
  | nil => intro acc; rfl
  | cons b t ih =>
    intro acc
    have hb0 := hb b (List.mem_cons_self b t)
    have he : applyBlock pm acc b = acc := by
      unfold applyBlock
      rw [if_neg hb0.1, if_neg hb0.2]
    simp only [List.foldl_cons, he]
    exact ih (fun b' hb' => hb b' (List.mem_cons_of_mem b hb')) acc

/-- Claim C10: `update_order` on the empty string returns the state
untouched (no keys inserted), while on any non-empty string it stores the
ledger keys — defaulting absent ones to `[]` and `0` — and text with no
parseable block or with unknown verbs causes no add/remove mutation. -/
theorem update_order_empty_vs_nonempty (pm : String → Option Rat)
    (order_update : String) (s : SessionState) :
    (order_update = "" → update_order pm order_update s = s) ∧
    (order_update ≠ "" →
      (∀ b ∈ command_blocks order_update, b.1 ≠ "add" ∧ b.1 ≠ "remove") →
      update_order pm order_update s =
        { s with
          current_order := some (s.current_order.getD []),
          order_total := some (s.order_total.getD 0) }) := by
  constructor
  · intro h
    unfold update_order
    rw [if_pos h]
  · intro hne hb
    unfold update_order
    rw [if_neg hne]
    simp only [foldl_applyBlock_unknown_verbs pm _ hb]

/-- Witness for `update_order_empty_vs_nonempty`: on the empty initial
state, the empty update is the identity, and a non-empty update with one
unknown-verb block and surrounding junk only materializes the default
ledger keys. -/
theorem update_order_empty_vs_nonempty_witness :
    update_order menuPriceMap "" initState = initState ∧
    update_order menuPriceMap "foo [x] bar" initState =
      { initState with current_order := some [], order_total := some 0 } :=
  ⟨(update_order_empty_vs_nonempty menuPriceMap "" initState).1 rfl,
    (update_order_empty_vs_nonempty menuPriceMap "foo [x] bar" initState).2
      (by decide) (by decide)⟩

/-! ## Workflow temporal ordering of statuses (claim C9) -/

/-- `update_order` only touches the ledger keys, never `order_status`. -/
theorem update_order_order_status (pm : String → Option Rat)
    (order_update : String) (s : SessionState) :
    (update_order pm order_update s).order_status = s.order_status := by
  unfold update_order
  split_ifs <;> rfl

/-- Router inversion: the confirmation agent is selected only in states
whose `order_status` is `finished`. -/
theorem route_confirmation_finished (s : SessionState)
    (h : get_next_agent s = CONFIRMATION_AGENT) :
    s.order_status = some FINISHED := by
  simp only [get_next_agent] at h
  split_ifs at h with h1 h2 h3
  · exact absurd h (by decide)
  · exact absurd h (by decide)
  · cases ho : s.order_status with
    | none => rw [ho] at h3; exact absurd h3 (by decide)
    | some v =>
      rw [ho] at h3
      simp only [Option.getD_some] at h3
      rw [h3]
  · exact absurd h (by decide)
  · exact absurd h (by decide)
  · exact absurd h (by decide)

/-- A step that lands on status `getting_user_info` either preserved it or
started from status `confirmed` (the user-info agent's before-model
callback is the only writer of `getting_user_info`, and it is guarded by
`confirmed`). -/
theorem wstep_to_getting_user_info {s s' : SessionState} (h : WStep s s')
    (h' : s'.order_status = some GETTING_USER_INFO) :
    s.order_status = some GETTING_USER_INFO ∨
      s.order_status = some CONFIRMED := by
  cases h with
  | preorder t hroute =>
    unfold preorder_after_model at h'
    split_ifs at h' <;> exact Or.inl h'
  | menu order_finished order_update hroute =>
    exfalso
    unfold menu_after_model at h'
    rw [update_order_order_status] at h'
    split_ifs at h' <;>
      simp [FINISHED, IN_PROGRESS, GETTING_USER_INFO] at h'
  | confirmation order_confirmed hroute =>
    unfold confirmation_after_model at h'
    split_ifs at h'
    · simp [CONFIRMED, GETTING_USER_INFO] at h'
    · simp [IN_PROGRESS, GETTING_USER_INFO] at h'
    · exact Or.inl h'
  | user_info output hroute =>
    unfold user_info_invoke at h'
    split_ifs at h' with hc hn hr
    · exact Or.inr hc
    · exact Or.inr hc
    · simp [IN_PROGRESS, GETTING_USER_INFO] at h'
    · exact Or.inl h'

/-- A step that lands on status `confirmed` either preserved it or started
from status `finished` (the confirmation agent is the only writer of
`confirmed`, and the router sends it only `finished` states). -/
theorem wstep_to_confirmed {s s' : SessionState} (h : WStep s s')
    (h' : s'.order_status = some CONFIRMED) :
    s.order_status = some CONFIRMED ∨ s.order_status = some FINISHED := by
  cases h with
  | preorder t hroute =>
    unfold preorder_after_model at h'
    split_ifs at h' <;> exact Or.inl h'
  | menu order_finished order_update hroute =>
    exfalso
    unfold menu_after_model at h'
    rw [update_order_order_status] at h'
    split_ifs at h' <;> simp [FINISHED, IN_PROGRESS, CONFIRMED] at h'
  | confirmation order_confirmed hroute =>
    unfold confirmation_after_model at h'
    split_ifs at h'
    · exact Or.inr (route_confirmation_finished _ hroute)
    · simp [IN_PROGRESS, CONFIRMED] at h'
    · exact Or.inl h'
  | user_info output hroute =>
    unfold user_info_invoke at h'
    split_ifs at h' with hc hn hr
    · exact Or.inl hc
    · simp [GETTING_USER_INFO, CONFIRMED] at h'
    · simp [IN_PROGRESS, CONFIRMED] at h'
    · exact Or.inl h'

/-- Claim C9: along every routed-workflow execution from the initial
state, a state with status `getting_user_info` is preceded by a strictly
earlier state with status `confirmed`, and a state with status `confirmed`
is preceded by a strictly earlier state with status `finished`. -/
theorem status_progression_temporal (f : Nat → SessionState)
    (h0 : f 0 = initState) :
    ∀ n : Nat, (∀ i, i < n → WStep (f i) (f (i + 1))) →
      ((f n).order_status = some GETTING_USER_INFO →
        ∃ j, j < n ∧ (f j).order_status = some CONFIRMED) ∧
      ((f n).order_status = some CONFIRMED →
        ∃ j, j < n ∧ (f j).order_status = some FINISHED) := by
  intro n
  induction n with
  | zero =>
    intro _
    constructor <;> (intro h; rw [h0] at h; exact absurd h (by decide))
  | succ m ih =>
    intro hstep
    have ihm := ih (fun i hi => hstep i (Nat.lt_succ_of_lt hi))
    have hm : WStep (f m) (f (m + 1)) := hstep m (Nat.lt_succ_self m)
    constructor
    · intro h'
      rcases wstep_to_getting_user_info hm h' with hg | hc
      · obtain ⟨j, hj, hjc⟩ := ihm.1 hg
        exact ⟨j, by omega, hjc⟩
      · exact ⟨m, by omega, hc⟩
    · intro h'
      rcases wstep_to_confirmed hm h' with hc | hf
      · obtain ⟨j, hj, hjf⟩ := ihm.2 hc
        exact ⟨j, by omega, hjf⟩
      · exact ⟨m, by omega, hf⟩

/-- Witness for `status_progression_temporal`: the five-step sample run
ends in `getting_user_info`, and the theorem produces the strictly earlier
`confirmed` step. -/
theorem status_progression_temporal_witness :
    ∃ j, j < 5 ∧ (sampleTrace j).order_status = some CONFIRMED :=
  (status_progression_temporal sampleTrace rfl 5 (by
    intro i hi
    interval_cases i
    · exact WStep.preorder initState OrderTypeOut.TO_GO (by decide)
    · exact WStep.menu sample1 false "add [King Burger]" (by decide)
    · exact WStep.menu sample2 true "" (by decide)
    · exact WStep.confirmation sample3 "true" (by decide)
    · exact WStep.user_info sample4 ⟨"", false⟩ (by decide))).1 (by decide)

end OrderAssistant
